import Mathlib

/-!
# Verification of the gateway registry, broadcast relay and stream tracker
of `socketio-cloud-server.js`

Shallow embedding of the stateful core of the server:

* The JavaScript `Map` objects `this.gateways` and `this.rtmpStreams` are
  modelled as association lists in insertion order (`JsMap`), with `set`
  overwriting in place, `delete` removing the entry, and iteration
  (`forEach`) visiting entries in list order — exactly the iteration
  contract of a JS `Map`.
* `Date.now()` / `new Date()` are modelled by an explicit `now : Nat`
  parameter supplied to each handler.
* A JS value that may be `undefined` is modelled as an `Option`; the JS
  `x || d` defaulting idiom is modelled by `jsOrStr` / `jsOrInt`, which are
  faithful to JS truthiness (`""` and `0` are falsy and fall back to the
  default; any other value, including a negative number, is kept).
* The live socket handle stored in a registry entry is modelled by the
  entry's `socketValid` flag: `socket.emit` on a valid handle delivers a
  message, on an invalid handle it throws.  The source has no `try`/`catch`
  around the `emit` in `broadcastToGateways`, so in the embedding a throw
  aborts the iteration and propagates (`threw` in `BroadcastResult`).
* `this.io.emit(...)` notifications to observers are returned as event
  values alongside the new state.
-/

set_option autoImplicit false

namespace CloudServer

/-- A JavaScript `Map` with string keys: entries in insertion order. -/
abbrev JsMap (β : Type) := List (String × β)

/-- `Map.prototype.get`: first (unique) entry with the given key. -/
def mapGet {β : Type} (k : String) : JsMap β → Option β
  | [] => none
  | (k', v) :: rest => if k' = k then some v else mapGet k rest

/-- `Map.prototype.set`: overwrite the entry in place if the key is
present, otherwise append at the end (JS insertion order). -/
def mapSet {β : Type} (k : String) (v : β) : JsMap β → JsMap β
  | [] => [(k, v)]
  | (k', v') :: rest =>
      if k' = k then (k, v) :: rest else (k', v') :: mapSet k v rest

/-- `Map.prototype.delete`: remove the entry with the given key, if any. -/
def mapDelete {β : Type} (k : String) : JsMap β → JsMap β
  | [] => []
  | (k', v') :: rest =>
      if k' = k then rest else (k', v') :: mapDelete k rest

/-- `Map.prototype.size`. -/
def mapSize {β : Type} (m : JsMap β) : Nat := m.length

/-- Number of entries stored under a key (1 for a well-formed JS map
holding the key, 0 otherwise). -/
def countKey {β : Type} (k : String) (m : JsMap β) : Nat :=
  (m.filter (fun kv => kv.1 = k)).length

/-- JS `s || d` for an optionally-undefined string: `undefined` and the
falsy `""` yield the default. -/
def jsOrStr (o : Option String) (d : String) : String :=
  match o with
  | none => d
  | some s => if s = "" then d else s

/-- JS `n || d` for an optionally-undefined number: `undefined` and the
falsy `0` yield the default; every other number (negative included) is
kept. -/
def jsOrInt (o : Option Int) (d : Int) : Int :=
  match o with
  | none => d
  | some n => if n = 0 then d else n

/-- A registry entry, as built by the `register-gateway` handler.  The
stored live socket handle is abstracted to `socketValid`: whether an
`emit` on it delivers (`true`) or throws (`false`). -/
structure Gateway where
  id : String
  siteName : String
  connectedAt : Nat
  socketValid : Bool
  deviceCount : Int
  lastHeartbeat : Nat
deriving DecidableEq

/-- Payload of a `register-gateway` message; absent fields are `none`. -/
structure RegisterData where
  siteName : Option String
  deviceCount : Option Int
deriving DecidableEq

/-- The `gateway-connected` event emitted to all observers by the
`register-gateway` handler.  Its `siteName` field is the raw payload field
(`data.siteName`, possibly `undefined` = `none`), not the stored default;
its `deviceCount` is `data.deviceCount || 0`. -/
structure GatewayConnectedEvent where
  siteName : Option String
  deviceCount : Int
deriving DecidableEq

/-- The `gateway-disconnected` event emitted by the disconnect handler. -/
structure GatewayDisconnectedEvent where
  siteName : String
deriving DecidableEq

/-- The `register-gateway` handler (source lines 323–340): stores an entry
under `socket.id` with defaulted `siteName`/`deviceCount`, then emits
`gateway-connected` with the raw `data.siteName` and defaulted
`deviceCount`. -/
def registerGateway (socketId : String) (now : Nat) (valid : Bool)
    (d : RegisterData) (st : JsMap Gateway) :
    JsMap Gateway × GatewayConnectedEvent :=
  (mapSet socketId
      { id := socketId
        siteName := jsOrStr d.siteName "未命名工地"
        connectedAt := now
        socketValid := valid
        deviceCount := jsOrInt d.deviceCount 0
        lastHeartbeat := now } st,
   { siteName := d.siteName, deviceCount := jsOrInt d.deviceCount 0 })

/-- The `heartbeat` handler (source lines 373–381): if the socket id is
registered, refresh `lastHeartbeat` and, only when `data.deviceCount` is
not `undefined`, overwrite `deviceCount`; otherwise do nothing. -/
def heartbeat (socketId : String) (now : Nat) (dc : Option Int)
    (st : JsMap Gateway) : JsMap Gateway :=
  match mapGet socketId st with
  | none => st
  | some g =>
      mapSet socketId
        { g with
            lastHeartbeat := now
            deviceCount := match dc with
              | none => g.deviceCount
              | some n => n } st

/-- The `disconnect` handler (source lines 384–393): if the socket id is
registered, emit `gateway-disconnected` with the entry's `siteName` and
delete the entry; otherwise do nothing and emit nothing. -/
def disconnect (socketId : String) (st : JsMap Gateway) :
    JsMap Gateway × Option GatewayDisconnectedEvent :=
  match mapGet socketId st with
  | none => (st, none)
  | some g => (mapDelete socketId st, some { siteName := g.siteName })

/-- One message delivered by `broadcastToGateways`: the payload spread
into a fresh object together with the serverside `timestamp` and the
`fromCloud: true` origin marker, addressed to one gateway. -/
structure Sent (α : Type) where
  dest : String
  event : String
  data : α
  timestamp : Nat
  fromCloud : Bool
deriving DecidableEq

/-- Outcome of one `broadcastToGateways` call.  `delivered` are the
messages actually emitted, in `Map.forEach` order; `count` is the value
of the local `count` variable at the point iteration stopped; `threw`
records whether an `emit` on an invalid handle threw, aborting the
`forEach` and propagating to the caller; `ret` is the JS return value of
the call — the source function body ends with a `console.log` and has no
`return` statement, so a completed call evaluates to `undefined`
(`none`). -/
structure BroadcastResult (α : Type) where
  delivered : List (Sent α)
  count : Nat
  threw : Bool
  ret : Option Nat
deriving DecidableEq

/-- `broadcastToGateways` (source lines 398–409): iterate over all
registry entries in insertion order, emitting the augmented payload to
each stored socket and incrementing `count`.  There is no exception
handling: an `emit` that throws (invalid handle) stops the iteration and
the exception propagates. -/
def broadcastToGateways {α : Type} (ev : String) (payload : α) (now : Nat) :
    JsMap Gateway → BroadcastResult α
  | [] => { delivered := [], count := 0, threw := false, ret := none }
  | (k, g) :: rest =>
      if g.socketValid then
        let r := broadcastToGateways ev payload now rest
        { delivered :=
            { dest := k, event := ev, data := payload,
              timestamp := now, fromCloud := true } :: r.delivered
          count := r.count + 1
          threw := r.threw
          ret := r.ret }
      else
        { delivered := [], count := 0, threw := true, ret := none }

/-- JS `String.prototype.split(sep)` on a list of characters: always
returns at least one (possibly empty) segment, e.g. `"" ↦ [""]`,
`"a/b" ↦ ["a", "b"]`, `"a//b" ↦ ["a", "", "b"]`. -/
def splitChar (sep : Char) : List Char → List (List Char)
  | [] => [[]]
  | c :: cs =>
      let r := splitChar sep cs
      if c = sep then [] :: r
      else
        match r with
        | [] => [[c]]
        | h :: t => (c :: h) :: t

/-- `StreamPath.split('/').pop()` (source lines 63 and 82): the last
`'/'`-delimited segment of the path.  `Array.prototype.pop` returns the
last element; `split` never returns an empty array, so the `getLastD`
default is never used. -/
def streamKeyOf (p : String) : String :=
  String.mk ((splitChar '/' p.data).getLastD [])

/-- A tracked RTMP session, as stored by the `prePublish` handler. -/
structure StreamSession where
  id : String
  streamPath : String
  startTime : Nat
  active : Bool
deriving DecidableEq

/-- The `stream-started` event emitted to all clients on `prePublish`. -/
structure StreamStartedEvent where
  streamKey : String
  streamPath : String
  timestamp : Nat
deriving DecidableEq

/-- The `stream-ended` event emitted to all clients on `donePublish`. -/
structure StreamEndedEvent where
  streamKey : String
  timestamp : Nat
deriving DecidableEq

/-- The `prePublish` handler (source lines 59–77): derive the stream key
from the path, overwrite the tracker entry, emit `stream-started`. -/
def onPublishStart (sessionId : String) (streamPath : String) (now : Nat)
    (st : JsMap StreamSession) :
    JsMap StreamSession × List StreamStartedEvent :=
  (mapSet (streamKeyOf streamPath)
      { id := sessionId, streamPath := streamPath,
        startTime := now, active := true } st,
   [{ streamKey := streamKeyOf streamPath, streamPath := streamPath,
      timestamp := now }])

/-- The `donePublish` handler (source lines 79–90): derive the stream key
from the path, delete the tracker entry (a no-op on the map when the key
is absent), and emit `stream-ended` unconditionally. -/
def onPublishStop (sessionId : String) (streamPath : String) (now : Nat)
    (st : JsMap StreamSession) :
    JsMap StreamSession × List StreamEndedEvent :=
  (mapDelete (streamKeyOf streamPath) st,
   [{ streamKey := streamKeyOf streamPath, timestamp := now }])

/-- An inbound registry-mutating event, for stating reachability
invariants over the registry. -/
inductive Op where
  | reg (socketId : String) (now : Nat) (valid : Bool) (d : RegisterData)
  | hb (socketId : String) (now : Nat) (dc : Option Int)
  | disc (socketId : String)
deriving DecidableEq

/-- State transition of the registry under one inbound event. -/
def applyOp (st : JsMap Gateway) : Op → JsMap Gateway
  | .reg socketId now valid d => (registerGateway socketId now valid d st).1
  | .hb socketId now dc => heartbeat socketId now dc st
  | .disc socketId => (disconnect socketId st).1

/-- Registry state reached from `st` after a sequence of inbound
events. -/
def runOps (ops : List Op) (st : JsMap Gateway) : JsMap Gateway :=
  ops.foldl applyOp st

/-- All registry entries have a nonnegative `deviceCount`. -/
def regOk (st : JsMap Gateway) : Bool :=
  st.all (fun kv => decide (0 ≤ kv.2.deviceCount))

/-- A concrete live registry entry, for witnesses and counterexamples. -/
def gwA : Gateway :=
  { id := "g1", siteName := "SiteA", connectedAt := 0,
    socketValid := true, deviceCount := 3, lastHeartbeat := 0 }

/-- A second concrete live registry entry. -/
def gwB : Gateway :=
  { id := "g2", siteName := "SiteB", connectedAt := 1,
    socketValid := true, deviceCount := 4, lastHeartbeat := 1 }

/-- A concrete registry entry whose stored connection has become invalid:
an `emit` on it throws. -/
def gwBad : Gateway :=
  { id := "gBad", siteName := "SiteX", connectedAt := 2,
    socketValid := false, deviceCount := 0, lastHeartbeat := 2 }

/-- The `deviceCount` input carried by an event, when there is one, is
nonnegative. -/
def opOk : Op → Bool
  | .reg _ _ _ d =>
      match d.deviceCount with
      | none => true
      | some n => decide (0 ≤ n)
  | .hb _ _ dc =>
      match dc with
      | none => true
      | some n => decide (0 ≤ n)
  | .disc _ => true

theorem mapGet_mapSet_self {β : Type} (k : String) (v : β) (m : JsMap β) :
    mapGet k (mapSet k v m) = some v := by
  induction m with
  | nil => simp [mapGet, mapSet]
  | cons kv rest ih =>
      obtain ⟨k', v'⟩ := kv
      by_cases h : k' = k
      · simp [mapGet, mapSet, h]
      · simp [mapGet, mapSet, h, ih]

theorem mapGet_mapSet_ne {β : Type} (j k : String) (v : β) (m : JsMap β)
    (h : j ≠ k) : mapGet j (mapSet k v m) = mapGet j m := by
  have hne : ¬ k = j := fun hh => h hh.symm
  induction m with
  | nil => simp [mapGet, mapSet, hne]
  | cons kv rest ih =>
      obtain ⟨k', v'⟩ := kv
      by_cases hk : k' = k
      · simp [mapGet, mapSet, hk, hne]
      · by_cases hj : k' = j
        · simp [mapGet, mapSet, hk, hj, h]
        · simp [mapGet, mapSet, hk, hj, ih]

theorem mapSize_mapSet_of_mem {β : Type} (k : String) (v w : β) (m : JsMap β)
    (h : mapGet k m = some w) : mapSize (mapSet k v m) = mapSize m := by
  induction m with
  | nil => simp [mapGet] at h
  | cons kv rest ih =>
      obtain ⟨k', v'⟩ := kv
      by_cases hk : k' = k
      · simp [mapSet, mapSize, hk]
      · simp only [mapGet, hk, if_neg hk] at h
        simp [mapSet, mapSize, hk] at ih ⊢
        exact ih h

theorem countKey_eq_zero_of_get_none {β : Type} (k : String) (m : JsMap β)
    (h : mapGet k m = none) : countKey k m = 0 := by
  induction m with
  | nil => simp [countKey]
  | cons kv rest ih =>
      obtain ⟨k', v'⟩ := kv
      by_cases hk : k' = k
      · simp [mapGet, hk] at h
      · simp only [mapGet, hk, if_neg hk] at h
        simp [countKey, List.filter, hk] at ih ⊢
        exact ih h

theorem countKey_mapSet_of_get_none {β : Type} (k : String) (v : β)
    (m : JsMap β) (h : mapGet k m = none) :
    countKey k (mapSet k v m) = countKey k m + 1 := by
  induction m with
  | nil => simp [countKey, mapSet, List.filter]
  | cons kv rest ih =>
      obtain ⟨k', v'⟩ := kv
      by_cases hk : k' = k
      · simp [mapGet, hk] at h
      · simp only [mapGet, hk, if_neg hk] at h
        simp [countKey, mapSet, List.filter, hk] at ih ⊢
        exact ih h

theorem countKey_mapSet_of_get_some {β : Type} (k : String) (v w : β)
    (m : JsMap β) (h : mapGet k m = some w) :
    countKey k (mapSet k v m) = countKey k m := by
  induction m with
  | nil => simp [mapGet] at h
  | cons kv rest ih =>
      obtain ⟨k', v'⟩ := kv
      by_cases hk : k' = k
      · simp [countKey, mapSet, List.filter, hk]
      · simp only [mapGet, hk, if_neg hk] at h
        simp [countKey, mapSet, List.filter, hk] at ih ⊢
        exact ih h

theorem mapGet_eq_none_of_not_mem_keys {β : Type} (k : String) (m : JsMap β)
    (h : k ∉ m.map Prod.fst) : mapGet k m = none := by
  induction m with
  | nil => simp [mapGet]
  | cons kv rest ih =>
      obtain ⟨k', v'⟩ := kv
      simp only [List.map_cons, List.mem_cons] at h
      have hk : ¬ k' = k := fun hh => h (Or.inl hh.symm)
      simp only [mapGet, if_neg hk]
      exact ih (fun hm => h (Or.inr hm))

theorem countKey_le_one_of_nodup {β : Type} (k : String) (m : JsMap β)
    (h : (m.map Prod.fst).Nodup) : countKey k m ≤ 1 := by
  induction m with
  | nil => simp [countKey]
  | cons kv rest ih =>
      obtain ⟨k', v'⟩ := kv
      simp only [List.map_cons, List.nodup_cons] at h
      by_cases hk : k' = k
      · subst hk
        have hz : countKey k' rest = 0 :=
          countKey_eq_zero_of_get_none k' rest
            (mapGet_eq_none_of_not_mem_keys k' rest h.1)
        have hc : countKey k' ((k', v') :: rest) = countKey k' rest + 1 := by
          simp [countKey, List.filter]
        rw [hc, hz]
      · have hc : countKey k ((k', v') :: rest) = countKey k rest := by
          simp [countKey, List.filter, hk]
        rw [hc]
        exact ih h.2

theorem countKey_pos_of_get_some {β : Type} (k : String) (w : β)
    (m : JsMap β) (h : mapGet k m = some w) : 1 ≤ countKey k m := by
  induction m with
  | nil => simp [mapGet] at h
  | cons kv rest ih =>
      obtain ⟨k', v'⟩ := kv
      by_cases hk : k' = k
      · simp [countKey, List.filter, hk]
      · simp only [mapGet, hk, if_neg hk] at h
        simp [countKey, List.filter, hk] at ih ⊢
        exact ih h

theorem mapDelete_of_get_none {β : Type} (k : String) (m : JsMap β)
    (h : mapGet k m = none) : mapDelete k m = m := by
  induction m with
  | nil => simp [mapDelete]
  | cons kv rest ih =>
      obtain ⟨k', v'⟩ := kv
      by_cases hk : k' = k
      · simp [mapGet, hk] at h
      · simp only [mapGet, hk, if_neg hk] at h
        simp [mapDelete, hk, ih h]

theorem mapGet_mapDelete_ne {β : Type} (j k : String) (m : JsMap β)
    (h : j ≠ k) : mapGet j (mapDelete k m) = mapGet j m := by
  have hne : ¬ k = j := fun hh => h hh.symm
  induction m with
  | nil => simp [mapDelete]
  | cons kv rest ih =>
      obtain ⟨k', v'⟩ := kv
      by_cases hk : k' = k
      · simp [mapGet, mapDelete, hk, hne]
      · by_cases hj : k' = j
        · simp [mapGet, mapDelete, hk, hj, h]
        · simp [mapGet, mapDelete, hk, hj, ih]

theorem mapGet_mapDelete_self_of_nodup {β : Type} (k : String) (m : JsMap β)
    (h : (m.map Prod.fst).Nodup) : mapGet k (mapDelete k m) = none := by
  induction m with
  | nil => simp [mapGet, mapDelete]
  | cons kv rest ih =>
      obtain ⟨k', v'⟩ := kv
      simp only [List.map_cons, List.nodup_cons] at h
      by_cases hk : k' = k
      · subst hk
        simp only [mapDelete, if_pos rfl]
        exact mapGet_eq_none_of_not_mem_keys k' rest h.1
      · simp only [mapDelete, if_neg hk]
        simp only [mapGet, if_neg hk]
        exact ih h.2

theorem all_mapSet {β : Type} (p : String × β → Bool) (k : String) (v : β)
    (m : JsMap β) (hm : m.all p = true) (hv : p (k, v) = true) :
    (mapSet k v m).all p = true := by
  induction m with
  | nil => simp [mapSet, hv]
  | cons kv rest ih =>
      obtain ⟨k', v'⟩ := kv
      simp only [List.all_cons, Bool.and_eq_true] at hm
      by_cases hk : k' = k
      · simp [mapSet, hk, hv, hm.2]
      · simp [mapSet, hk, hm.1, ih hm.2]

theorem all_mapDelete {β : Type} (p : String × β → Bool) (k : String)
    (m : JsMap β) (hm : m.all p = true) : (mapDelete k m).all p = true := by
  induction m with
  | nil => simp [mapDelete]
  | cons kv rest ih =>
      obtain ⟨k', v'⟩ := kv
      simp only [List.all_cons, Bool.and_eq_true] at hm
      by_cases hk : k' = k
      · simp [mapDelete, hk, hm.2]
      · simp [mapDelete, hk, hm.1, ih hm.2]

theorem all_mapGet {β : Type} (p : String × β → Bool) (k : String)
    (m : JsMap β) (w : β) (hm : m.all p = true) (h : mapGet k m = some w) :
    p (k, w) = true := by
  induction m with
  | nil => simp [mapGet] at h
  | cons kv rest ih =>
      obtain ⟨k', v'⟩ := kv
      simp only [List.all_cons, Bool.and_eq_true] at hm
      by_cases hk : k' = k
      · simp only [mapGet, if_pos hk] at h
        cases h
        exact hk ▸ hm.1
      · simp only [mapGet, if_neg hk] at h
        exact ih hm.2 h

/-- The `deviceCount` a `register-gateway` call stores is nonnegative
whenever the supplied one (if any) is. -/
theorem jsOrInt_nonneg (o : Option Int)
    (h : match o with | none => True | some n => 0 ≤ n) :
    0 ≤ jsOrInt o 0 := by
  cases o with
  | none => simp [jsOrInt]
  | some n =>
      simp only [jsOrInt]
      by_cases hn : n = 0
      · simp [hn]
      · simpa [hn] using h

/-- One inbound event with a nonnegative `deviceCount` input preserves
nonnegativity of all stored `deviceCount`s. -/
theorem regOk_applyOp (op : Op) (st : JsMap Gateway)
    (hop : opOk op = true) (hst : regOk st = true) :
    regOk (applyOp st op) = true := by
  cases op with
  | reg socketId now valid d =>
      apply all_mapSet _ _ _ _ hst
      simp only [decide_eq_true_eq]
      apply jsOrInt_nonneg
      cases hdc : d.deviceCount with
      | none => trivial
      | some n =>
          simp only [opOk, hdc, decide_eq_true_eq] at hop
          simpa [hdc] using hop
  | hb socketId now dc =>
      simp only [applyOp, heartbeat]
      cases hg : mapGet socketId st with
      | none => exact hst
      | some g =>
          apply all_mapSet _ _ _ _ hst
          simp only [decide_eq_true_eq]
          cases dc with
          | none =>
              have := all_mapGet _ socketId st g hst hg
              simpa using this
          | some n =>
              simpa [opOk, decide_eq_true_eq] using hop
  | disc socketId =>
      simp only [applyOp, disconnect]
      cases hg : mapGet socketId st with
      | none => exact hst
      | some g => exact all_mapDelete _ _ _ hst

/-- Invariant preservation over any event sequence with nonnegative
`deviceCount` inputs. -/
theorem regOk_runOps (ops : List Op) (st : JsMap Gateway)
    (hops : ∀ op ∈ ops, opOk op = true) (hst : regOk st = true) :
    regOk (runOps ops st) = true := by
  induction ops generalizing st with
  | nil => exact hst
  | cons op rest ih =>
      simp only [runOps, List.foldl_cons] at ih ⊢
      exact ih (applyOp st op)
        (fun o ho => hops o (List.mem_cons_of_mem op ho))
        (regOk_applyOp op st (hops op (List.mem_cons_self op rest)) hst)

theorem splitChar_cons_sep (sep : Char) (cs : List Char) :
    splitChar sep (sep :: cs) = [] :: splitChar sep cs := by
  simp [splitChar]

theorem splitChar_cons_ne (sep c : Char) (cs : List Char) (h : ¬ c = sep) :
    splitChar sep (c :: cs) =
      match splitChar sep cs with
      | [] => [[c]]
      | hd :: t => (c :: hd) :: t := by
  simp [splitChar, h]

theorem splitChar_ne_nil (sep : Char) (l : List Char) :
    splitChar sep l ≠ [] := by
  cases l with
  | nil => simp [splitChar]
  | cons c cs =>
      by_cases h : c = sep
      · subst h
        rw [splitChar_cons_sep]
        simp
      · rw [splitChar_cons_ne sep c cs h]
        cases hs : splitChar sep cs with
        | nil => simp
        | cons x xs => simp

theorem getLastD_congr {γ : Type} (l : List γ) (d1 d2 : γ) (h : l ≠ []) :
    l.getLastD d1 = l.getLastD d2 := by
  rw [List.getLastD_eq_getLast?, List.getLastD_eq_getLast?]
  cases hl : l.getLast? with
  | none => exact absurd (List.getLast?_eq_none_iff.mp hl) h
  | some x => rfl

theorem splitChar_append_length (sep : Char) (l1 l2 : List Char) :
    2 ≤ (splitChar sep (l1 ++ sep :: l2)).length := by
  induction l1 with
  | nil =>
      rw [List.nil_append, splitChar_cons_sep, List.length_cons]
      have h1 : 0 < (splitChar sep l2).length :=
        List.length_pos.mpr (splitChar_ne_nil sep l2)
      omega
  | cons c cs ih =>
      by_cases h : c = sep
      · subst h
        rw [List.cons_append, splitChar_cons_sep, List.length_cons]
        omega
      · rw [List.cons_append, splitChar_cons_ne sep c _ h]
        cases hs : splitChar sep (cs ++ sep :: l2) with
        | nil => exact absurd hs (splitChar_ne_nil sep _)
        | cons x xs =>
            rw [hs] at ih
            simp only [List.length_cons] at ih ⊢
            omega

theorem getLastD_splitChar_append (sep : Char) (l1 l2 : List Char) :
    (splitChar sep (l1 ++ sep :: l2)).getLastD [] =
      (splitChar sep l2).getLastD [] := by
  induction l1 with
  | nil =>
      rw [List.nil_append, splitChar_cons_sep, List.getLastD_cons]
  | cons c cs ih =>
      by_cases h : c = sep
      · subst h
        rw [List.cons_append, splitChar_cons_sep, List.getLastD_cons]
        exact ih
      · rw [List.cons_append, splitChar_cons_ne sep c _ h]
        cases hs : splitChar sep (cs ++ sep :: l2) with
        | nil => exact absurd hs (splitChar_ne_nil sep _)
        | cons x xs =>
            rw [hs] at ih
            have hlen := splitChar_append_length sep cs l2
            rw [hs] at hlen
            simp only [List.length_cons] at hlen
            have hxs : xs ≠ [] := by
              cases xs with
              | nil => simp at hlen
              | cons y ys => simp
            simp only [List.getLastD_cons] at ih ⊢
            rw [← ih]
            exact getLastD_congr _ _ _ hxs

theorem splitChar_eq_single (sep : Char) (l : List Char) (h : sep ∉ l) :
    splitChar sep l = [l] := by
  induction l with
  | nil => simp [splitChar]
  | cons c cs ih =>
      simp only [List.mem_cons] at h
      have hc : ¬ c = sep := fun hh => h (Or.inl hh.symm)
      have hcs := ih (fun hm => h (Or.inr hm))
      simp [splitChar, hc, hcs]

/-- Last-segment characterization of the key derivation: for a path
written as `prefixPart ++ "/" ++ finalSegment` where the final segment
holds no `'/'`, the derived key is exactly the final segment. -/
theorem streamKeyOf_last_segment (a b : String) (hb : '/' ∉ b.data) :
    streamKeyOf (a ++ "/" ++ b) = b := by
  have hdata : (a ++ "/" ++ b).data = a.data ++ '/' :: b.data := by
    rw [String.data_append, String.data_append]
    rw [List.append_assoc]
    rfl
  simp only [streamKeyOf, hdata]
  rw [getLastD_splitChar_append, splitChar_eq_single _ _ hb]
  rfl

/-- On a path with no `'/'` at all, the derived key is the whole path. -/
theorem streamKeyOf_no_sep (p : String) (hp : '/' ∉ p.data) :
    streamKeyOf p = p := by
  simp only [streamKeyOf]
  rw [splitChar_eq_single _ _ hp]
  rfl


/-- Claim C1, as stated, is false on the code: `broadcastToGateways` does
deliver to every registered gateway, but its body ends with a
`console.log` and has no `return` statement — the call evaluates to
`undefined`, never to the recipient count.  At a concrete registry with
one live gateway, the delivery happens (one message) yet the returned
value is not the recipient count 1. -/
theorem broadcast_returns_count_counterexample :
    (broadcastToGateways "cloud-message" (37 : Nat) 5 [("g1", gwA)]).delivered.length = 1 ∧
    mapSize [("g1", gwA)] = 1 ∧
    (broadcastToGateways "cloud-message" (37 : Nat) 5 [("g1", gwA)]).ret ≠
      some (mapSize [("g1", gwA)]) := by
  decide

/-- Claim C1 (amended): for every registry state whose stored connections
all deliver, `broadcastToGateways(eventType, payload)` sends the payload
augmented with the server timestamp and the `fromCloud` origin marker to
every currently registered gateway — with N registered gateways it
delivers to all N and its internal counter reaches N — but the call
itself returns no value (`undefined`), not the count. -/
theorem broadcast_fanout {α : Type} (ev : String) (payload : α) (now : Nat)
    (st : JsMap Gateway)
    (hv : st.all (fun kv => kv.2.socketValid) = true) :
    (broadcastToGateways ev payload now st).threw = false ∧
    (broadcastToGateways ev payload now st).delivered =
      st.map (fun kv =>
        { dest := kv.1, event := ev, data := payload,
          timestamp := now, fromCloud := true }) ∧
    (broadcastToGateways ev payload now st).count = mapSize st ∧
    (broadcastToGateways ev payload now st).ret = none := by
  induction st with
  | nil => simp [broadcastToGateways, mapSize]
  | cons kv rest ih =>
      obtain ⟨k, g⟩ := kv
      simp only [List.all_cons, Bool.and_eq_true] at hv
      have ihh := ih hv.2
      simp only [broadcastToGateways, hv.1, if_true, List.map_cons,
        mapSize, List.length_cons]
      refine ⟨ihh.1, ?_, ?_, ihh.2.2.2⟩
      · exact congrArg (List.cons _) ihh.2.1
      · exact congrArg (· + 1) ihh.2.2.1

/-- Witness for the amended C1 at a concrete two-gateway registry. -/
theorem broadcast_fanout_witness :
    (broadcastToGateways "device-control" (99 : Nat) 7
      [("g1", gwA), ("g2", gwB)]).threw = false ∧
    (broadcastToGateways "device-control" (99 : Nat) 7
      [("g1", gwA), ("g2", gwB)]).delivered =
      List.map (fun kv =>
        { dest := kv.1, event := "device-control", data := (99 : Nat),
          timestamp := 7, fromCloud := true }) [("g1", gwA), ("g2", gwB)] ∧
    (broadcastToGateways "device-control" (99 : Nat) 7
      [("g1", gwA), ("g2", gwB)]).count = mapSize [("g1", gwA), ("g2", gwB)] ∧
    (broadcastToGateways "device-control" (99 : Nat) 7
      [("g1", gwA), ("g2", gwB)]).ret = none :=
  broadcast_fanout "device-control" (99 : Nat) 7
    [("g1", gwA), ("g2", gwB)] (by decide)

/-- Claim C2, as stated, is false on the code: `broadcastToGateways` has
no exception handling, so an `emit` that throws on an invalid connection
aborts the whole broadcast and propagates to the caller.  Concretely,
with a first gateway whose connection is invalid and a second live one,
the exception propagates (`threw`) and the second gateway receives
nothing. -/
theorem broadcast_isolation_counterexample :
    (broadcastToGateways "cloud-message" (1 : Nat) 5
      [("gBad", gwBad), ("g2", gwB)]).threw = true ∧
    (broadcastToGateways "cloud-message" (1 : Nat) 5
      [("gBad", gwBad), ("g2", gwB)]).delivered = [] := by
  decide

/-- Claim C2 (amended): a send failure to one recipient is not isolated —
the gateways before the failing one in iteration order receive the
message, the failing one and every later one receive nothing, and the
failure propagates to the caller. -/
theorem broadcast_aborts_on_failure {α : Type} (ev : String) (payload : α)
    (now : Nat) (pre post : JsMap Gateway) (k : String) (g : Gateway)
    (hpre : pre.all (fun kv => kv.2.socketValid) = true)
    (hg : g.socketValid = false) :
    (broadcastToGateways ev payload now (pre ++ (k, g) :: post)).threw = true ∧
    (broadcastToGateways ev payload now (pre ++ (k, g) :: post)).delivered =
      pre.map (fun kv =>
        { dest := kv.1, event := ev, data := payload,
          timestamp := now, fromCloud := true }) := by
  induction pre with
  | nil => simp [broadcastToGateways, hg]
  | cons kv rest ih =>
      obtain ⟨k', g'⟩ := kv
      simp only [List.all_cons, Bool.and_eq_true] at hpre
      have ihh := ih hpre.2
      simp only [List.cons_append, broadcastToGateways, hpre.1, if_true,
        List.map_cons]
      exact ⟨ihh.1, congrArg (List.cons _) ihh.2⟩

/-- Witness for the amended C2: one live gateway before the invalid one,
one after; only the first receives the message and the call throws. -/
theorem broadcast_aborts_on_failure_witness :
    (broadcastToGateways "stream-control" (2 : Nat) 9
      ([("g1", gwA)] ++ ("gBad", gwBad) :: [("g2", gwB)])).threw = true ∧
    (broadcastToGateways "stream-control" (2 : Nat) 9
      ([("g1", gwA)] ++ ("gBad", gwBad) :: [("g2", gwB)])).delivered =
      List.map (fun kv =>
        { dest := kv.1, event := "stream-control", data := (2 : Nat),
          timestamp := 9, fromCloud := true }) [("g1", gwA)] :=
  broadcast_aborts_on_failure "stream-control" (2 : Nat) 9
    [("g1", gwA)] [("g2", gwB)] "gBad" gwBad (by decide) (by decide)

/-- Claim C3, as stated, is false on the code: for a stream key with no
active tracked session, `donePublish` does leave the tracker map
unchanged (`Map.delete` of an absent key), but it emits the
`stream-ended` event unconditionally — the handler has no presence
check.  Concretely, stopping `"live/cam-07"` on an empty tracker leaves
the tracker empty yet emits an event. -/
theorem stop_without_start_counterexample :
    (onPublishStop "sess1" "live/cam-07" 10 ([] : JsMap StreamSession)).1 = [] ∧
    (onPublishStop "sess1" "live/cam-07" 10 ([] : JsMap StreamSession)).2 ≠ [] := by
  decide

/-- Claim C3 (amended): for every stream key with no active tracked
session, `onPublishStop` leaves the stream tracker's map unchanged, but
it still emits exactly one "stream ended" event (carrying the derived
key and the timestamp): emission is unconditional, not suppressed. -/
theorem stop_without_start (sessionId streamPath : String) (now : Nat)
    (st : JsMap StreamSession)
    (h : mapGet (streamKeyOf streamPath) st = none) :
    (onPublishStop sessionId streamPath now st).1 = st ∧
    (onPublishStop sessionId streamPath now st).2 =
      [{ streamKey := streamKeyOf streamPath, timestamp := now }] := by
  exact ⟨mapDelete_of_get_none _ _ h, rfl⟩

/-- Witness for the amended C3 at a concrete empty tracker. -/
theorem stop_without_start_witness :
    (onPublishStop "sess1" "live/cam-42" 11 ([] : JsMap StreamSession)).1 = [] ∧
    (onPublishStop "sess1" "live/cam-42" 11 ([] : JsMap StreamSession)).2 =
      [{ streamKey := streamKeyOf "live/cam-42", timestamp := 11 }] :=
  stop_without_start "sess1" "live/cam-42" 11 [] (by decide)

/-- Claim C4: both `onPublishStart` (`prePublish`) and `onPublishStop`
(`donePublish`) operate on the tracker at key `streamKeyOf streamPath`, a
pure function of the path alone — the session ids `sid1`, `sid2` are
arbitrary and do not occur in the key.  `streamKeyOf` is the last
`'/'`-delimited segment: on any path `a ++ "/" ++ b` whose final segment
`b` holds no `'/'` it yields `b`, and on `"live/cam-07"` it yields
`"cam-07"`. -/
theorem streamKey_derivation (sid1 sid2 : String) (streamPath : String)
    (t1 t2 : Nat) (st1 st2 : JsMap StreamSession) (a b : String)
    (hb : '/' ∉ b.data) :
    (onPublishStart sid1 streamPath t1 st1).1 =
      mapSet (streamKeyOf streamPath)
        { id := sid1, streamPath := streamPath,
          startTime := t1, active := true } st1 ∧
    (onPublishStop sid2 streamPath t2 st2).1 =
      mapDelete (streamKeyOf streamPath) st2 ∧
    streamKeyOf (a ++ "/" ++ b) = b ∧
    streamKeyOf "live/cam-07" = "cam-07" :=
  ⟨rfl, rfl, streamKeyOf_last_segment a b hb, by decide⟩

/-- Witness for C4 at the spec's concrete path `"live/cam-07"`. -/
theorem streamKey_derivation_witness :
    (onPublishStart "sessA" "live/cam-07" 1 ([] : JsMap StreamSession)).1 =
      mapSet (streamKeyOf "live/cam-07")
        { id := "sessA", streamPath := "live/cam-07",
          startTime := 1, active := true } [] ∧
    (onPublishStop "sessB" "live/cam-07" 2 ([] : JsMap StreamSession)).1 =
      mapDelete (streamKeyOf "live/cam-07") [] ∧
    streamKeyOf ("live" ++ "/" ++ "cam-07") = "cam-07" ∧
    streamKeyOf "live/cam-07" = "cam-07" :=
  streamKey_derivation "sessA" "sessB" "live/cam-07" 1 2 [] []
    "live" "cam-07" (by decide)

/-- Claim C5: starting from an empty stream tracker, `onPublishStart`
followed immediately by `onPublishStop` with the same path (whatever the
two transport session ids and timestamps) leaves the tracker's count
equal to 0: the stop resolves to the same derived key and deletes the
entry the start inserted. -/
theorem start_then_stop_count_zero (sid1 sid2 streamPath : String)
    (t1 t2 : Nat) :
    mapSize (onPublishStop sid2 streamPath t2
      (onPublishStart sid1 streamPath t1 ([] : JsMap StreamSession)).1).1 = 0 := by
  simp [onPublishStart, onPublishStop, mapSet, mapDelete, mapSize]

/-- Claim C6: on a registry with no duplicate keys, calling
`register` twice with the same connection id (any two argument sets)
leaves exactly one entry for that id, holding the values of the second
call (`siteName`/`deviceCount` defaulted as the handler does,
`connectedAt` and `lastHeartbeat` from the second call's clock), and the
registry's size equals the size after the first call alone — no
double-counting. -/
theorem register_idempotent (socketId : String) (t1 t2 : Nat)
    (v1 v2 : Bool) (d1 d2 : RegisterData) (st : JsMap Gateway)
    (hwf : (st.map Prod.fst).Nodup) :
    mapGet socketId (registerGateway socketId t2 v2 d2
        (registerGateway socketId t1 v1 d1 st).1).1 =
      some { id := socketId
             siteName := jsOrStr d2.siteName "未命名工地"
             connectedAt := t2
             socketValid := v2
             deviceCount := jsOrInt d2.deviceCount 0
             lastHeartbeat := t2 } ∧
    countKey socketId (registerGateway socketId t2 v2 d2
        (registerGateway socketId t1 v1 d1 st).1).1 = 1 ∧
    mapSize (registerGateway socketId t2 v2 d2
        (registerGateway socketId t1 v1 d1 st).1).1 =
      mapSize (registerGateway socketId t1 v1 d1 st).1 := by
  simp only [registerGateway]
  refine ⟨mapGet_mapSet_self _ _ _, ?_, ?_⟩
  · rw [countKey_mapSet_of_get_some _ _ _ _ (mapGet_mapSet_self _ _ _)]
    cases hg : mapGet socketId st with
    | none =>
        rw [countKey_mapSet_of_get_none _ _ _ hg,
          countKey_eq_zero_of_get_none _ _ hg]
    | some w =>
        rw [countKey_mapSet_of_get_some _ _ _ _ hg]
        have h1 := countKey_pos_of_get_some socketId w st hg
        have h2 := countKey_le_one_of_nodup socketId st hwf
        omega
  · exact mapSize_mapSet_of_mem _ _ _ _ (mapGet_mapSet_self _ _ _)

/-- Witness for C6: double registration of `"g1"` on an empty registry,
second call with different values. -/
theorem register_idempotent_witness :
    mapGet "g1" (registerGateway "g1" 8 true
        { siteName := some "SiteNew", deviceCount := some 7 }
        (registerGateway "g1" 3 true
          { siteName := some "SiteOld", deviceCount := some 2 }
          ([] : JsMap Gateway)).1).1 =
      some { id := "g1"
             siteName := jsOrStr (some "SiteNew") "未命名工地"
             connectedAt := 8
             socketValid := true
             deviceCount := jsOrInt (some 7) 0
             lastHeartbeat := 8 } ∧
    countKey "g1" (registerGateway "g1" 8 true
        { siteName := some "SiteNew", deviceCount := some 7 }
        (registerGateway "g1" 3 true
          { siteName := some "SiteOld", deviceCount := some 2 }
          ([] : JsMap Gateway)).1).1 = 1 ∧
    mapSize (registerGateway "g1" 8 true
        { siteName := some "SiteNew", deviceCount := some 7 }
        (registerGateway "g1" 3 true
          { siteName := some "SiteOld", deviceCount := some 2 }
          ([] : JsMap Gateway)).1).1 =
      mapSize (registerGateway "g1" 3 true
        { siteName := some "SiteOld", deviceCount := some 2 }
        ([] : JsMap Gateway)).1 :=
  register_idempotent "g1" 3 8 true true
    { siteName := some "SiteOld", deviceCount := some 2 }
    { siteName := some "SiteNew", deviceCount := some 7 } []
    (by decide)

/-- Claim C7: on a registry with no duplicate keys, the disconnect
handler removes the entry and emits a `gateway-disconnected` event with
the removed entry's `siteName` when the id is registered; when the id is
not registered (never registered, or already removed) it is a silent
no-op — no event, registry unchanged.  Other entries are untouched. -/
theorem unregister_spec (socketId : String) (st : JsMap Gateway)
    (hwf : (st.map Prod.fst).Nodup) :
    (mapGet socketId st = none → disconnect socketId st = (st, none)) ∧
    (∀ g, mapGet socketId st = some g →
      (disconnect socketId st).2 = some { siteName := g.siteName } ∧
      mapGet socketId (disconnect socketId st).1 = none ∧
      ∀ j, j ≠ socketId → mapGet j (disconnect socketId st).1 = mapGet j st) := by
  constructor
  · intro h
    simp [disconnect, h]
  · intro g hg
    refine ⟨by simp [disconnect, hg], ?_, ?_⟩
    · simp only [disconnect, hg]
      exact mapGet_mapDelete_self_of_nodup socketId st hwf
    · intro j hj
      simp only [disconnect, hg]
      exact mapGet_mapDelete_ne j socketId st hj

/-- Witness for C7 on the one-entry registry holding `gwA` under `"g1"`:
unregistering the unknown `"nobody"` is a silent no-op, unregistering
`"g1"` removes it, emits its site name, and leaves `"g2"`'s (absent)
lookup unchanged. -/
theorem unregister_spec_witness :
    disconnect "nobody" [("g1", gwA)] = ([("g1", gwA)], none) ∧
    (disconnect "g1" [("g1", gwA)]).2 = some { siteName := gwA.siteName } ∧
    mapGet "g1" (disconnect "g1" [("g1", gwA)]).1 = none ∧
    mapGet "g2" (disconnect "g1" [("g1", gwA)]).1 = mapGet "g2" [("g1", gwA)] := by
  have h1 := (unregister_spec "nobody" [("g1", gwA)] (by decide)).1 (by decide)
  have h2 := (unregister_spec "g1" [("g1", gwA)] (by decide)).2 gwA (by decide)
  exact ⟨h1, h2.1, h2.2.1, h2.2.2 "g2" (by decide)⟩

/-- Claim C8: `updateHeartbeat` on an unregistered id is a no-op (not an
error, registry unchanged); on a registered id it refreshes
`lastHeartbeat`, overwrites `deviceCount` only when one is supplied
(keeping the old one otherwise), keeps every other field of the entry
(`siteName`, `connectedAt`, id, socket) — the record update below copies
them from the old entry `g` — and leaves every other registry entry
unchanged. -/
theorem heartbeat_spec (socketId : String) (now : Nat) (dc : Option Int)
    (st : JsMap Gateway) :
    (mapGet socketId st = none → heartbeat socketId now dc st = st) ∧
    (∀ g, mapGet socketId st = some g →
      mapGet socketId (heartbeat socketId now dc st) =
        some { g with lastHeartbeat := now
                      deviceCount := dc.getD g.deviceCount } ∧
      ∀ j, j ≠ socketId → mapGet j (heartbeat socketId now dc st) = mapGet j st) := by
  constructor
  · intro h
    simp [heartbeat, h]
  · intro g hg
    constructor
    · simp only [heartbeat, hg]
      rw [mapGet_mapSet_self]
      cases dc <;> rfl
    · intro j hj
      simp only [heartbeat, hg]
      exact mapGet_mapSet_ne j socketId _ st hj

/-- Witness for C8 on a two-entry registry: a heartbeat for the unknown
`"nobody"` changes nothing; a heartbeat for `"g1"` without a device count
keeps `deviceCount`, one with `some 9` overwrites it; `"g2"`'s entry is
untouched. -/
theorem heartbeat_spec_witness :
    heartbeat "nobody" 50 (some 9) [("g1", gwA), ("g2", gwB)] =
      [("g1", gwA), ("g2", gwB)] ∧
    mapGet "g1" (heartbeat "g1" 50 none [("g1", gwA), ("g2", gwB)]) =
      some { gwA with lastHeartbeat := 50
                      deviceCount := Option.getD none gwA.deviceCount } ∧
    mapGet "g2" (heartbeat "g1" 50 none [("g1", gwA), ("g2", gwB)]) =
      mapGet "g2" [("g1", gwA), ("g2", gwB)] ∧
    mapGet "g1" (heartbeat "g1" 60 (some 9) [("g1", gwA), ("g2", gwB)]) =
      some { gwA with lastHeartbeat := 60
                      deviceCount := Option.getD (some 9) gwA.deviceCount } := by
  have h0 := (heartbeat_spec "nobody" 50 (some 9) [("g1", gwA), ("g2", gwB)]).1
    (by decide)
  have h1 := (heartbeat_spec "g1" 50 none [("g1", gwA), ("g2", gwB)]).2 gwA
    (by decide)
  have h2 := (heartbeat_spec "g1" 60 (some 9) [("g1", gwA), ("g2", gwB)]).2 gwA
    (by decide)
  exact ⟨h0, h1.1, h1.2 "g2" (by decide), h2.1⟩

/-- Claim C9, as stated, is false on the code: nothing validates
`deviceCount`.  Registration stores `data.deviceCount || 0`, and a
negative number is truthy in JS, so it is stored as-is: after the single
reachable-state-building operation `register("a", deviceCount := -1)`
the entry's `deviceCount` is `-1 < 0`. -/
theorem deviceCount_nonneg_counterexample :
    mapGet "a" (runOps
        [Op.reg "a" 0 true { siteName := none, deviceCount := some (-1) }]
        ([] : JsMap Gateway)) =
      some { id := "a", siteName := "未命名工地", connectedAt := 0,
             socketValid := true, deviceCount := -1, lastHeartbeat := 0 } ∧
    ({ id := "a", siteName := "未命名工地", connectedAt := 0,
       socketValid := true, deviceCount := -1,
       lastHeartbeat := 0 } : Gateway).deviceCount < 0 := by
  decide

/-- Claim C9 (amended): the nonnegativity of every stored `deviceCount`
is an invariant only relative to the inputs — starting from a registry
whose entries all have nonnegative counts (e.g. the empty one), after any
sequence of register, heartbeat and unregister operations whose supplied
`deviceCount` inputs (when present) are nonnegative, every entry's
`deviceCount` is an integer ≥ 0; a negative input is stored unvalidated
(see the counterexample). -/
theorem deviceCount_nonneg_invariant (ops : List Op) (st : JsMap Gateway)
    (hops : ∀ op ∈ ops, opOk op = true) (hst : regOk st = true) :
    ∀ k g, mapGet k (runOps ops st) = some g → 0 ≤ g.deviceCount := by
  intro k g hg
  have h := all_mapGet _ k (runOps ops st) g
    (regOk_runOps ops st hops hst) hg
  simpa using h

/-- Witness for the amended C9: register with count 3, heartbeat raising
it to 5, plus an unregister of an unknown id; the reached entry's count
is `5 ≥ 0`. -/
theorem deviceCount_nonneg_invariant_witness :
    (0 : Int) ≤ ({ id := "a", siteName := "SiteA", connectedAt := 0,
                   socketValid := true, deviceCount := 5,
                   lastHeartbeat := 4 } : Gateway).deviceCount :=
  deviceCount_nonneg_invariant
    [Op.reg "a" 0 true { siteName := some "SiteA", deviceCount := some 3 },
     Op.hb "a" 4 (some 5), Op.disc "zz"]
    [] (by decide) (by decide) "a"
    { id := "a", siteName := "SiteA", connectedAt := 0,
      socketValid := true, deviceCount := 5, lastHeartbeat := 4 }
    (by decide)

/-- Claim C10: when the `register-gateway` payload lacks `siteName`, the
stored entry's `siteName` is the placeholder default, but the
`gateway-connected` event emitted by the same call carries the raw
caller-supplied `siteName` (absent, not the placeholder), while the
event's `deviceCount` is defaulted to 0 when absent. -/
theorem register_event_raw_siteName (socketId : String) (now : Nat)
    (valid : Bool) (dc : Option Int) (st : JsMap Gateway) :
    (mapGet socketId (registerGateway socketId now valid
        { siteName := none, deviceCount := dc } st).1).map Gateway.siteName =
      some "未命名工地" ∧
    (registerGateway socketId now valid
        { siteName := none, deviceCount := dc } st).2.siteName = none ∧
    (dc = none →
      (registerGateway socketId now valid
          { siteName := none, deviceCount := dc } st).2.deviceCount = 0) := by
  refine ⟨?_, rfl, ?_⟩
  · simp only [registerGateway]
    rw [mapGet_mapSet_self]
    rfl
  · intro h
    subst h
    rfl

/-- Witness for C10 with both payload fields absent, on a nonempty
registry. -/
theorem register_event_raw_siteName_witness :
    (mapGet "g9" (registerGateway "g9" 12 true
        { siteName := none, deviceCount := none }
        [("g1", gwA)]).1).map Gateway.siteName = some "未命名工地" ∧
    (registerGateway "g9" 12 true
        { siteName := none, deviceCount := none }
        [("g1", gwA)]).2.siteName = none ∧
    (registerGateway "g9" 12 true
        { siteName := none, deviceCount := none }
        [("g1", gwA)]).2.deviceCount = 0 := by
  have h := register_event_raw_siteName "g9" 12 true none [("g1", gwA)]
  exact ⟨h.1, h.2.1, h.2.2 rfl⟩

end CloudServer
